import Mathlib

/-!
Verification of the ACPI-table patching logic of
`SecurityPkg/Tcg/Tcg2AcpiFfa/Tcg2AcpiFfa.c`.

The three patchers (`UpdatePPVersion`, `UpdatePossibleResource`, `UpdateHID`)
operate in place on a byte buffer holding an ACPI table.  The buffer is
modelled as a `List Nat` of byte values; reads truncate to a byte
(`% 256`), as loading a `UINT8` does, and writes store the value modulo
256, as storing to a `UINT8` does.  `EFI_STATUS` results are modelled by
the inductive `Status`.  The table header (`EFI_ACPI_DESCRIPTION_HEADER`)
is 36 bytes; its `Length` field occupies byte offsets 4..7,
little-endian, and `(UINT8 *)(Table + 1)` is byte offset 36.

The BaseLib/BaseMemoryLib helpers used by the patchers (`CompareMem`,
`CopyMem`, `SetMem`, `AsciiStrCmp`, `AsciiStrCpyS`) are not part of the
single source file; they are modelled below by their standard
byte-by-byte C semantics.
-/

set_option maxRecDepth 40000

namespace Tcg2

/-- Outcome of a patch call, modelling the `EFI_STATUS` values actually
returned by the patchers in the source file. -/
inductive Status where
  | success
  | invalidParameter
  | unsupported
  | notFound
  | bufferTooSmall
  deriving DecidableEq

/-- Result of `UpdatePPVersion` / `UpdateHID`: a status plus the
(possibly rewritten) table buffer. -/
structure PatchResult where
  status : Status
  buf : List Nat
  deriving DecidableEq

/-- Result of `UpdatePossibleResource`: a status, the (possibly
rewritten) table buffer, and the final value of the caller's
`IsShortFormPkgLength` out-parameter. -/
structure URResult where
  status : Status
  buf : List Nat
  isShortForm : Bool
  deriving DecidableEq

/-- Read one byte of the buffer (a `UINT8` load): out-of-range reads
yield 0 and stored values are truncated to a byte. -/
def rd (buf : List Nat) (i : Nat) : Nat :=
  buf.getD i 0 % 256

/-- Write one byte of the buffer (a `UINT8` store): the value is
truncated to a byte; an out-of-range index leaves the list unchanged
(such a store would be out of bounds of the table allocation in C). -/
def wr (buf : List Nat) (i v : Nat) : List Nat :=
  buf.set i (v % 256)

/-- `CopyMem (buf + dst, src, n)` for a byte source list.  Each target
byte is written exactly once, to `dst + k` for `k < n`, so the write
order is immaterial; the recursion peels the final byte. -/
def copyMem (buf : List Nat) (dst : Nat) (src : List Nat) : Nat → List Nat
  | 0 => buf
  | n + 1 => wr (copyMem buf dst src n) (dst + n) (src.getD n 0)

/-- `SetMem (buf + start, n, v)`: fill `n` bytes from offset `start`
with the byte `v`.  Each byte is written exactly once, so the write
order is immaterial; the recursion peels the final byte. -/
def fillMem (buf : List Nat) (start : Nat) (v : Nat) : Nat → List Nat
  | 0 => buf
  | n + 1 => wr (fillMem buf start v n) (start + n) v

/-- `CompareMem (buf + p, pat, pat.length) == 0`: the bytes at offsets
`p, p+1, ...` equal the pattern. -/
def matchAt (buf pat : List Nat) (p : Nat) : Bool :=
  (List.range pat.length).all fun k => rd buf (p + k) == pat.getD k 0

/-- Forward byte-by-byte scan for the first offset `p` with
`start ≤ p < bound` whose bytes match the pattern; models the anchor
search loops. -/
def findPat (buf pat : List Nat) (start bound : Nat) : Option Nat :=
  (List.range' start (bound - start)).find? (matchAt buf pat)

/-- Number of byte positions `AsciiStrCmp (buf + p, tag)` examines
before stopping: the first index `k` at which the buffer byte is NUL or
differs from the tag byte (the tag bytes are the non-NUL characters of
the anchor literal).  `AsciiStrCmp` returns 0 exactly when the stop
index is `tag.length` and the buffer byte just past the tag is NUL. -/
def strcmpStop (buf : List Nat) (p : Nat) : List Nat → Nat
  | [] => 0
  | t :: ts => if rd buf p = 0 ∨ rd buf p ≠ t then 0 else 1 + strcmpStop buf (p + 1) ts

/-- `AsciiStrCmp ((CHAR8 *)(buf + p), tag) == 0` where `tag` lists the
non-NUL characters of the anchor string literal. -/
def strcmpEq (buf : List Nat) (p : Nat) (tag : List Nat) : Bool :=
  (strcmpStop buf p tag == tag.length) && (rd buf (p + tag.length) == 0)

/-- The declared total length of the table: the `Length` field of the
`EFI_ACPI_DESCRIPTION_HEADER`, bytes 4..7 little-endian. -/
def tableLength (buf : List Nat) : Nat :=
  rd buf 4 + 256 * rd buf 5 + 65536 * rd buf 6 + 16777216 * rd buf 7

/-- `TPM_PRS_RESS`: the bytes of the string literal given as
`#define TPM_PRS_RESS "RESS"`. -/
def ressPat : List Nat := [82, 69, 83, 83]

/-- `TPM_PRS_RESL`: the bytes of the string literal given as
`#define TPM_PRS_RESL "RESL"`. -/
def reslPat : List Nat := [82, 69, 83, 76]

/-- `PHYSICAL_PRESENCE_VERSION_TAG`: the characters of the
string literal defined as PHYSICAL PRESENCE VERSION TAG. -/
def ppvTag : List Nat := [36, 80, 86]

/-- `TPM_HID_TAG`: the characters of the string literal defined as
TPM HID TAG. -/
def hidTag : List Nat := [78, 78, 78, 78, 48, 48, 48, 48]

/-- The `ACPI_END_TAG_DESCRIPTOR` byte (value 0x79). -/
def ACPI_END_TAG : Nat := 121

/-- The `AML_NOOP_OP` filler byte (value 0xA3). -/
def AML_NOOP : Nat := 163

/-- The `AML_BYTE_PREFIX` opcode byte (value 0x0A). -/
def amlBytePfx : Nat := 10

/-- The `AML_WORD_PREFIX` opcode byte (value 0x0B). -/
def amlWordPfx : Nat := 11

/-- The `AML_DWORD_PREFIX` opcode byte (value 0x0C). -/
def amlDwordPfx : Nat := 12

/-- Exclusive upper bound of the anchor scan loops of
`UpdatePossibleResource`: `Table->Length` minus
`TPM_PRS_RES_NAME_SIZE + TPM_POS_RES_TEMPLATE_MIN_SIZE` = 4 + 23 = 27
(byte offsets relative to the start of the table). -/
def scanBound (buf : List Nat) : Nat :=
  tableLength buf - 27

/-- The `BufferSize` skip amounts of `UpdatePossibleResource`
(lines 228-237 and 303-312): 2 bytes after `AML_BYTE_PREFIX`, 3 after
`AML_WORD_PREFIX`, 5 after `AML_DWORD_PREFIX`; any other width-tag byte
hits `ASSERT (FALSE); return EFI_UNSUPPORTED`. -/
def pfxSkip (b : Nat) : Option Nat :=
  if b = amlBytePfx then some 2
  else if b = amlWordPfx then some 3
  else if b = amlDwordPfx then some 5
  else none

/-- Short-form PkgLength decode (line 217):
`OriginalPkgLength = (UINT32)*DataPtr`. -/
def decodeShortPkgLength (b0 : Nat) : Nat := b0

/-- Short-form PkgLength encode (line 259):
`*DataPtr = (UINT8)NewPkgLength`. -/
def encodeShortPkgLength (v : Nat) : Nat := v % 256

/-- Long-form PkgLength decode (line 293):
`OriginalPkgLength = (UINT32)(*(DataPtr + 1) << 4) + (*DataPtr & 0x0F)`.
Note that only the first extra byte participates, whatever count of
extra bytes the top two bits of the lead byte declare. -/
def decodeLongPkgLength (b0 b1 : Nat) : Nat :=
  (b1 <<< 4) + (b0 &&& 15)

/-- Long-form PkgLength re-encode, lead byte (line 331):
`*DataPtr = (UINT8)((*DataPtr) & 0xF0) | (NewPkgLength & 0x0F)`. -/
def encodeLongHdrByte (b0 v : Nat) : Nat :=
  (b0 &&& 240) ||| (v &&& 15)

/-- Long-form PkgLength re-encode, first extra byte (line 332):
`*(DataPtr + 1) = (UINT8)((NewPkgLength & 0xFF0) >> 4)`. -/
def encodeLongExtByte (v : Nat) : Nat :=
  (v &&& 4080) >>> 4

/-- Steps 3-5 of `UpdatePossibleResource` (lines 353-386), entered with
`DataPtr` at the byte after the object name and `BufferOp` (`rs`),
the computed `NewPkgLength`, and `DataEndPtr = rs + OriginalPkgLength`:
patch the Interrupt descriptor length and entry count, copy the
caller's interrupt list, append the End Tag, and fill the remainder of
the original region with `AML_NOOP_OP`. -/
def rewriteDescriptor (buf irq : List Nat) (L : Nat) (flag : Bool)
    (rs newLen dEnd : Nat) : URResult :=
  let d := rs + newLen - (5 + L + 2)
  let b1 := wr buf (d + 1) (2 + L)
  let b2 := wr b1 (d + 4) (L / 4)
  let b3 := copyMem b2 (d + 5) irq L
  let b4 := wr b3 (d + 5 + L) ACPI_END_TAG
  let b5 := wr b4 (d + 5 + L + 1) 0
  let b6 := fillMem b5 (d + 5 + L + 2) AML_NOOP (dEnd - (d + 5 + L + 2))
  ⟨Status.success, b6, flag⟩

/-- The body of the `TPM_PRS_RESL` loop of `UpdatePossibleResource`
(lines 286-345) for an anchor found at offset `q`, followed by the
final not-found check (line 349, `DataPtr = q + 5` after the `break`)
and steps 3-5.  The re-read of the patched lead byte at line 338
determines the offset of the `BufferSize` low byte.  The final check
re-reads `Table->Length`, which no patch write can touch (all writes
land at offsets of at least 41 > 7), so `scanBound buf` is used. -/
def longFormPatch (buf irq : List Nat) (L : Nat) (f0 : Bool) (q : Nat) : URResult :=
  let b0 := rd buf (q + 5)
  if b0 &&& 192 ≠ 0 then
    let origLen := decodeLongPkgLength b0 (rd buf (q + 6))
    let c := (b0 &&& 192) >>> 6
    match pfxSkip (rd buf (q + 5 + (1 + c))) with
    | none => ⟨Status.unsupported, buf, f0⟩
    | some s =>
      let newLen := 1 + c + s + 19 + L
      if origLen < newLen then ⟨Status.invalidParameter, buf, f0⟩
      else
        let buf1 := wr buf (q + 5) (encodeLongHdrByte b0 newLen)
        let buf2 := wr buf1 (q + 6) (encodeLongExtByte newLen)
        let c2 := (rd buf2 (q + 5) &&& 192) >>> 6
        let buf3 := wr buf2 (q + 5 + 2 + c2) (L + 19)
        if scanBound buf ≤ q + 5 then ⟨Status.notFound, buf3, false⟩
        else rewriteDescriptor buf3 irq L false (q + 5) newLen (q + 5 + origLen)
  else ⟨Status.unsupported, buf, f0⟩

/-- Part 2 of `UpdatePossibleResource` (lines 279-347): scan for the
`TPM_PRS_RESL` anchor; if the scan is exhausted the final check at
line 349 yields `EFI_NOT_FOUND`. -/
def reslPhase (buf irq : List Nat) (L : Nat) (f0 : Bool) : URResult :=
  match findPat buf reslPat 36 (scanBound buf) with
  | none => ⟨Status.notFound, buf, f0⟩
  | some q => longFormPatch buf irq L f0 q

/-- The body of the `TPM_PRS_RESS` loop of `UpdatePossibleResource`
(lines 210-273) for an anchor found at offset `p`, followed by the rest
of the function: on `NewPkgLength > 63` the loop `break`s into part 2;
otherwise the final not-found check (line 349, with `DataPtr = p + 5`)
and steps 3-5 run. -/
def shortFormPatch (buf irq : List Nat) (L : Nat) (f0 : Bool) (p : Nat) : URResult :=
  let b0 := rd buf (p + 5)
  if b0 &&& 192 = 0 then
    let origLen := decodeShortPkgLength b0
    match pfxSkip (rd buf (p + 6)) with
    | none => ⟨Status.unsupported, buf, f0⟩
    | some s =>
      let newLen := 1 + s + 19 + L
      if 63 < newLen then reslPhase buf irq L f0
      else if origLen < newLen then ⟨Status.invalidParameter, buf, f0⟩
      else
        let buf2 := wr (wr buf (p + 5) (encodeShortPkgLength newLen)) (p + 7) (L + 19)
        if scanBound buf ≤ p + 5 then ⟨Status.notFound, buf2, true⟩
        else rewriteDescriptor buf2 irq L true (p + 5) newLen (p + 5 + origLen)
  else ⟨Status.unsupported, buf, f0⟩

/-- `UpdatePossibleResource (Table, IrqBuffer, IrqBuffserSize, &IsShortFormPkgLength)`
(lines 151-387).  `irq` is the caller's interrupt buffer viewed as
bytes, `L` is `IrqBuffserSize`, and `f0` the value the caller's
`IsShortFormPkgLength` variable holds on entry (the out-parameter is
only assigned inside the two patch paths).  If the `TPM_PRS_RESS` scan
finds no anchor, `NewPkgLength` stays 0, part 2 is skipped, and the
final check returns `EFI_NOT_FOUND`. -/
def UpdatePossibleResource (buf irq : List Nat) (L : Nat) (f0 : Bool) : URResult :=
  match findPat buf ressPat 36 (scanBound buf) with
  | none => ⟨Status.notFound, buf, f0⟩
  | some p => shortFormPatch buf irq L f0 p

/-- Modelled from the spec: `AsciiStrCpyS (Dest, DestMax, Source)` of
BaseLib, which is not part of the source file under scrutiny.  Per its
documented safe-string semantics it validates that the NUL-terminated
source fits (`strlen(Source) < DestMax`) before copying; on failure
nothing is written. -/
def AsciiStrCpyS (buf : List Nat) (p destMax : Nat) (src : List Nat) : PatchResult :=
  if src.length < destMax then
    ⟨Status.success, wr (copyMem buf p src src.length) (p + src.length) 0⟩
  else ⟨Status.bufferTooSmall, buf⟩

/-- `UpdatePPVersion (Table, PPVer)` (lines 113-137): scan offsets
`36 ≤ p ≤ Table->Length - 4` for an `AsciiStrCmp` match of the
physical-presence version tag; on a match copy `PPVer` over it with
`AsciiStrCpyS (DataPtr, 4, PPVer)`, else return `EFI_NOT_FOUND`.
`ppver` lists the bytes of the caller's version string (no NUL). -/
def UpdatePPVersion (buf ppver : List Nat) : PatchResult :=
  match (List.range' 36 (tableLength buf - 39)).find? (fun p => strcmpEq buf p ppvTag) with
  | some p => AsciiStrCpyS buf p 4 ppver
  | none => ⟨Status.notFound, buf⟩

/-- The anchor-scan half of `UpdateHID` (lines 468-491), given the
`Hid` string that the preceding TPM capability queries produced (those
queries are external library calls; on their failure the function
returns before this loop).  Scan offsets `36 ≤ p ≤ Table->Length - 8`
for an `AsciiStrCmp` match of the HID tag; on a match copy 8 bytes and
a trailing `AML_NOOP_OP` (PNP form) or 9 bytes (ACPI form), else
return `EFI_NOT_FOUND`. -/
def UpdateHID (buf hid : List Nat) (pnp : Bool) : PatchResult :=
  match (List.range' 36 (tableLength buf - 43)).find? (fun p => strcmpEq buf p hidTag) with
  | some p =>
    if pnp then ⟨Status.success, wr (copyMem buf p hid 8) (p + 8) AML_NOOP⟩
    else ⟨Status.success, copyMem buf p hid 9⟩
  | none => ⟨Status.notFound, buf⟩

/-- Little-endian combination of extra bytes at 4 bits per byte:
byte `i` (0-based) contributes `b * 16 ^ (i + 1)`. -/
def specCombine : List Nat → Nat
  | [] => 0
  | b :: bs => 16 * (b + specCombine bs)

/-- The spec's long-form decode formula (stated from the spec, for
comparison with `decodeLongPkgLength`): the low nibble of the header
byte combined with all declared extra bytes via a 4-bit shift per
byte, little-endian. -/
def specLongFormDecode (hdr : Nat) (extras : List Nat) : Nat :=
  hdr % 16 + specCombine extras

/-! ### Concrete test tables

Concrete buffers used to instantiate the theorems.  Each starts with a
36-byte `EFI_ACPI_DESCRIPTION_HEADER` whose `Length` field (offsets
4..7) declares the total length; the `_PRS` resource template regions
follow at offset 36. -/

/-- A 100-byte table with a short-form `RESS` region at offset 36:
name, `BufferOp` 0x11, `PkgLength` 40 (short form), `AML_BYTE_PREFIX`,
`BufferSize` byte. -/
def tbufA : List Nat :=
  [0, 0, 0, 0, 100, 0, 0, 0] ++ List.replicate 28 0 ++
    [82, 69, 83, 83, 17, 40, 10, 33] ++ List.replicate 56 0

/-- An 8-byte interrupt list (two 4-byte entries). -/
def irqA : List Nat := [1, 2, 3, 4, 5, 6, 7, 8]

/-- A 200-byte table with a short-form `RESS` region at offset 36
(`PkgLength` 63) and a long-form `RESL` region at offset 50: lead byte
0x40 (one extra byte, low nibble 0), extra byte 5, so the decoded
original length is 80; `AML_BYTE_PREFIX` follows. -/
def tbufB : List Nat :=
  [0, 0, 0, 0, 200, 0, 0, 0] ++ List.replicate 28 0 ++
    [82, 69, 83, 83, 17, 63, 10, 33] ++ List.replicate 6 0 ++
    [82, 69, 83, 76, 17, 64, 5, 10, 7] ++ List.replicate 141 0

/-- A 44-byte interrupt list (eleven 4-byte entries). -/
def irqB : List Nat := List.replicate 44 9

/-- Like `tbufA` but with original short-form `PkgLength` 23, too
small for any patched interrupt list. -/
def tbufC : List Nat :=
  [0, 0, 0, 0, 100, 0, 0, 0] ++ List.replicate 28 0 ++
    [82, 69, 83, 83, 17, 23, 10, 33] ++ List.replicate 56 0

/-- Like `tbufB` but with `RESL` extra byte 4, so the decoded original
length 64 is one short of the required 67. -/
def tbufD : List Nat :=
  [0, 0, 0, 0, 200, 0, 0, 0] ++ List.replicate 28 0 ++
    [82, 69, 83, 83, 17, 63, 10, 33] ++ List.replicate 6 0 ++
    [82, 69, 83, 76, 17, 64, 4, 10, 7] ++ List.replicate 141 0

/-- Like `tbufA` but the byte after the `RESS` `BufferOp` has nonzero
top two bits (0x80), inconsistent with the short-budget region. -/
def tbufE1 : List Nat :=
  [0, 0, 0, 0, 100, 0, 0, 0] ++ List.replicate 28 0 ++
    [82, 69, 83, 83, 17, 128, 10, 33] ++ List.replicate 56 0

/-- Like `tbufA` but the width-tag byte after the `RESS` Size Field is
0x99, none of the three recognized integer prefixes. -/
def tbufE2 : List Nat :=
  [0, 0, 0, 0, 100, 0, 0, 0] ++ List.replicate 28 0 ++
    [82, 69, 83, 83, 17, 40, 153, 33] ++ List.replicate 56 0

/-- Like `tbufB` but the byte after the `RESL` `BufferOp` has zero top
two bits (0x20), inconsistent with the long-budget region. -/
def tbufE3 : List Nat :=
  [0, 0, 0, 0, 200, 0, 0, 0] ++ List.replicate 28 0 ++
    [82, 69, 83, 83, 17, 63, 10, 33] ++ List.replicate 6 0 ++
    [82, 69, 83, 76, 17, 32, 5, 10, 7] ++ List.replicate 141 0

/-- Like `tbufB` but the width-tag byte after the `RESL` Size Field is
0x99, none of the three recognized integer prefixes. -/
def tbufE4 : List Nat :=
  [0, 0, 0, 0, 200, 0, 0, 0] ++ List.replicate 28 0 ++
    [82, 69, 83, 83, 17, 63, 10, 33] ++ List.replicate 6 0 ++
    [82, 69, 83, 76, 17, 64, 5, 153, 7] ++ List.replicate 141 0

/-- A 100-byte table containing none of the anchor markers. -/
def tbufF : List Nat :=
  [0, 0, 0, 0, 100, 0, 0, 0] ++ List.replicate 92 0

/-- Like `tbufB` but with the `RESS` anchor destroyed (its final byte
zeroed); the `RESL` anchor at offset 50 is intact. -/
def tbufG : List Nat :=
  [0, 0, 0, 0, 200, 0, 0, 0] ++ List.replicate 28 0 ++
    [82, 69, 83, 0, 17, 63, 10, 33] ++ List.replicate 6 0 ++
    [82, 69, 83, 76, 17, 64, 5, 10, 7] ++ List.replicate 141 0

/-- Like `tbufB` but the `RESL` Size Field declares two extra bytes
(lead byte 0x80) whose values are 0 and 1: the code decodes 0 from the
first extra byte alone, while the spec formula over both extra bytes
gives 256. -/
def tbufJ : List Nat :=
  [0, 0, 0, 0, 200, 0, 0, 0] ++ List.replicate 28 0 ++
    [82, 69, 83, 83, 17, 63, 10, 33] ++ List.replicate 6 0 ++
    [82, 69, 83, 76, 17, 128, 0, 1, 10] ++ List.replicate 141 0

/-! ### Bitwise bridging lemmas

The source manipulates the PkgLength bytes with `&`, `|`, `<<`, `>>`;
these lemmas restate those operations through `/`, `%` and `*` so that
`omega` can reason about them. -/

theorem and15_eq (b : Nat) : b &&& 15 = b % 16 := by
  have h : (15 : Nat) = 2 ^ 4 - 1 := rfl
  rw [h, Nat.and_pow_two_sub_one_eq_mod]

theorem and_mask_shift (b m k : Nat) : b &&& (m <<< k) = ((b >>> k) &&& m) <<< k := by
  apply Nat.eq_of_testBit_eq
  intro i
  simp only [Nat.testBit_and, Nat.testBit_shiftLeft, Nat.testBit_shiftRight]
  by_cases h : k ≤ i
  · simp [h, Nat.sub_add_cancel h, Bool.and_comm, Bool.and_left_comm]
  · simp [h]

theorem and240_eq (b : Nat) : b &&& 240 = b / 16 % 16 * 16 := by
  have h : (240 : Nat) = 15 <<< 4 := rfl
  rw [h, and_mask_shift, and15_eq, Nat.shiftRight_eq_div_pow, Nat.shiftLeft_eq]

theorem and192_eq (b : Nat) : b &&& 192 = b / 64 % 4 * 64 := by
  have h : (192 : Nat) = 3 <<< 6 := rfl
  have h3 : ∀ x : Nat, x &&& 3 = x % 4 := by
    intro x
    have hx : (3 : Nat) = 2 ^ 2 - 1 := rfl
    rw [hx, Nat.and_pow_two_sub_one_eq_mod]
  rw [h, and_mask_shift, h3, Nat.shiftRight_eq_div_pow, Nat.shiftLeft_eq]

theorem and4080_eq (v : Nat) : v &&& 4080 = v / 16 % 256 * 16 := by
  have h : (4080 : Nat) = 255 <<< 4 := rfl
  have h255 : ∀ x : Nat, x &&& 255 = x % 256 := by
    intro x
    have hx : (255 : Nat) = 2 ^ 8 - 1 := rfl
    rw [hx, Nat.and_pow_two_sub_one_eq_mod]
  rw [h, and_mask_shift, h255, Nat.shiftRight_eq_div_pow, Nat.shiftLeft_eq]

theorem and192_shr6_eq (b : Nat) : (b &&& 192) >>> 6 = b / 64 % 4 := by
  rw [and192_eq, Nat.shiftRight_eq_div_pow]
  norm_num

theorem encodeLongExtByte_eq (v : Nat) : encodeLongExtByte v = v / 16 % 256 := by
  rw [encodeLongExtByte, and4080_eq, Nat.shiftRight_eq_div_pow]
  norm_num

theorem encodeLongHdrByte_eq (b v : Nat) :
    encodeLongHdrByte b v = b / 16 % 16 * 16 + v % 16 := by
  rw [encodeLongHdrByte, and240_eq, and15_eq]
  have h : v % 16 < 2 ^ 4 := by omega
  calc b / 16 % 16 * 16 ||| v % 16 = 2 ^ 4 * (b / 16 % 16) ||| v % 16 := by ring_nf
    _ = 2 ^ 4 * (b / 16 % 16) + v % 16 := (Nat.mul_add_lt_is_or h (b / 16 % 16)).symm
    _ = b / 16 % 16 * 16 + v % 16 := by ring

theorem decodeLongPkgLength_eq (b0 b1 : Nat) :
    decodeLongPkgLength b0 b1 = 16 * b1 + b0 % 16 := by
  rw [decodeLongPkgLength, Nat.shiftLeft_eq, and15_eq]
  ring

/-! ### Buffer read/write lemmas -/

theorem rd_lt_256 (buf : List Nat) (i : Nat) : rd buf i < 256 := by
  have h : buf.getD i 0 % 256 < 256 := by omega
  exact h

theorem wr_length (buf : List Nat) (i v : Nat) : (wr buf i v).length = buf.length :=
  List.length_set buf i (v % 256)

theorem rd_wr_of_ne (buf : List Nat) (i j v : Nat) (h : i ≠ j) :
    rd (wr buf i v) j = rd buf j := by
  rw [rd, rd, wr, List.getD_eq_getD_get?, List.getD_eq_getD_get?,
    List.get?_eq_getElem?, List.get?_eq_getElem?, List.getElem?_set_ne h]

theorem rd_wr_self (buf : List Nat) (i v : Nat) (h : i < buf.length) :
    rd (wr buf i v) i = v % 256 := by
  rw [rd, wr, List.getD_eq_getD_get?, List.get?_eq_getElem?,
    List.getElem?_set_eq_of_lt (v % 256) h]
  have : v % 256 % 256 = v % 256 := by omega
  exact this

theorem rd_wr_self_cases (buf : List Nat) (i v : Nat) :
    rd (wr buf i v) i = if i < buf.length then v % 256 else rd buf i := by
  by_cases h : i < buf.length
  · rw [if_pos h, rd_wr_self buf i v h]
  · rw [if_neg h, rd, wr, rd]
    have hlen : (buf.set i (v % 256)).length ≤ i := by
      rw [List.length_set]; omega
    rw [List.getD_eq_default _ _ hlen, List.getD_eq_default _ _ (by omega)]

theorem copyMem_length (buf : List Nat) (dst : Nat) (src : List Nat) (n : Nat) :
    (copyMem buf dst src n).length = buf.length := by
  induction n with
  | zero => rfl
  | succ n ih => rw [copyMem, wr_length, ih]

theorem rd_copyMem_out (buf : List Nat) (dst : Nat) (src : List Nat) (n j : Nat)
    (h : j < dst ∨ dst + n ≤ j) : rd (copyMem buf dst src n) j = rd buf j := by
  induction n with
  | zero => rfl
  | succ n ih =>
    rw [copyMem, rd_wr_of_ne _ _ _ _ (by omega), ih (by omega)]

theorem rd_copyMem_at (buf : List Nat) (dst : Nat) (src : List Nat) (n k : Nat)
    (hk : k < n) (hin : dst + k < buf.length) :
    rd (copyMem buf dst src n) (dst + k) = src.getD k 0 % 256 := by
  induction n with
  | zero => omega
  | succ n ih =>
    rw [copyMem]
    by_cases hkn : k = n
    · subst hkn
      rw [rd_wr_self _ _ _ (by rw [copyMem_length]; exact hin)]
    · rw [rd_wr_of_ne _ _ _ _ (by omega), ih (by omega)]

theorem fillMem_length (buf : List Nat) (start v n : Nat) :
    (fillMem buf start v n).length = buf.length := by
  induction n with
  | zero => rfl
  | succ n ih => rw [fillMem, wr_length, ih]

theorem rd_fillMem_out (buf : List Nat) (start v n j : Nat)
    (h : j < start ∨ start + n ≤ j) : rd (fillMem buf start v n) j = rd buf j := by
  induction n with
  | zero => rfl
  | succ n ih =>
    rw [fillMem, rd_wr_of_ne _ _ _ _ (by omega), ih (by omega)]

theorem rd_fillMem_at (buf : List Nat) (start v n j : Nat)
    (hj1 : start ≤ j) (hj2 : j < start + n) (hin : j < buf.length) :
    rd (fillMem buf start v n) j = v % 256 := by
  induction n with
  | zero => omega
  | succ n ih =>
    rw [fillMem]
    by_cases hkn : j = start + n
    · subst hkn
      rw [rd_wr_self _ _ _ (by rw [fillMem_length]; exact hin)]
    · rw [rd_wr_of_ne _ _ _ _ (by omega), ih (by omega)]

/-! ### Shape of the descriptor rewrite -/

theorem rewriteDescriptor_buf (buf irq : List Nat) (L : Nat) (flag : Bool)
    (rs newLen dEnd d : Nat) (hd : d = rs + newLen - (5 + L + 2)) :
    rewriteDescriptor buf irq L flag rs newLen dEnd =
      ⟨Status.success,
        fillMem
          (wr (wr (copyMem (wr (wr buf (d + 1) (2 + L)) (d + 4) (L / 4)) (d + 5) irq L)
            (d + 5 + L) ACPI_END_TAG) (d + 5 + L + 1) 0)
          (d + 5 + L + 2) AML_NOOP (dEnd - (d + 5 + L + 2)),
        flag⟩ := by
  subst hd
  rfl

theorem rewriteDescriptor_length (buf irq : List Nat) (L : Nat) (flag : Bool)
    (rs newLen dEnd : Nat) :
    (rewriteDescriptor buf irq L flag rs newLen dEnd).buf.length = buf.length := by
  rw [rewriteDescriptor_buf buf irq L flag rs newLen dEnd _ rfl]
  rw [fillMem_length, wr_length, wr_length, copyMem_length, wr_length, wr_length]

theorem rewriteDescriptor_untouched (buf irq : List Nat) (L : Nat) (flag : Bool)
    (rs newLen dEnd d j : Nat) (hd : d = rs + newLen - (5 + L + 2))
    (hj : j < d + 1) :
    rd (rewriteDescriptor buf irq L flag rs newLen dEnd).buf j = rd buf j := by
  rw [rewriteDescriptor_buf buf irq L flag rs newLen dEnd d hd]
  rw [show (⟨Status.success, fillMem
          (wr (wr (copyMem (wr (wr buf (d + 1) (2 + L)) (d + 4) (L / 4)) (d + 5) irq L)
            (d + 5 + L) ACPI_END_TAG) (d + 5 + L + 1) 0)
          (d + 5 + L + 2) AML_NOOP (dEnd - (d + 5 + L + 2)), flag⟩ : URResult).buf =
        fillMem
          (wr (wr (copyMem (wr (wr buf (d + 1) (2 + L)) (d + 4) (L / 4)) (d + 5) irq L)
            (d + 5 + L) ACPI_END_TAG) (d + 5 + L + 1) 0)
          (d + 5 + L + 2) AML_NOOP (dEnd - (d + 5 + L + 2)) from rfl]
  rw [rd_fillMem_out _ _ _ _ _ (by omega)]
  rw [rd_wr_of_ne _ _ _ _ (by omega)]
  rw [rd_wr_of_ne _ _ _ _ (by omega)]
  rw [rd_copyMem_out _ _ _ _ _ (by omega)]
  rw [rd_wr_of_ne _ _ _ _ (by omega)]
  rw [rd_wr_of_ne _ _ _ _ (by omega)]

theorem rewriteDescriptor_bytes (buf irq : List Nat) (L : Nat) (flag : Bool)
    (rs newLen dEnd d : Nat) (hd : d = rs + newLen - (5 + L + 2)) :
    (d + 1 < buf.length → rd (rewriteDescriptor buf irq L flag rs newLen dEnd).buf (d + 1) = (2 + L) % 256) ∧
    (d + 4 < buf.length → rd (rewriteDescriptor buf irq L flag rs newLen dEnd).buf (d + 4) = L / 4 % 256) ∧
    (∀ k, k < L → d + 5 + k < buf.length →
      rd (rewriteDescriptor buf irq L flag rs newLen dEnd).buf (d + 5 + k) = irq.getD k 0 % 256) ∧
    (d + 5 + L < buf.length → rd (rewriteDescriptor buf irq L flag rs newLen dEnd).buf (d + 5 + L) = 121) ∧
    (d + 5 + L + 1 < buf.length → rd (rewriteDescriptor buf irq L flag rs newLen dEnd).buf (d + 5 + L + 1) = 0) ∧
    (∀ off, d + 5 + L + 2 ≤ off → off < dEnd → off < buf.length →
      rd (rewriteDescriptor buf irq L flag rs newLen dEnd).buf off = 163) := by
  simp only [rewriteDescriptor_buf buf irq L flag rs newLen dEnd d hd]
  refine ⟨?_, ?_, ?_, ?_, ?_, ?_⟩
  · intro hin
    rw [rd_fillMem_out _ _ _ _ _ (by omega), rd_wr_of_ne _ _ _ _ (by omega),
      rd_wr_of_ne _ _ _ _ (by omega), rd_copyMem_out _ _ _ _ _ (by omega),
      rd_wr_of_ne _ _ _ _ (by omega),
      rd_wr_self _ _ _ (by simpa using hin)]
  · intro hin
    rw [rd_fillMem_out _ _ _ _ _ (by omega), rd_wr_of_ne _ _ _ _ (by omega),
      rd_wr_of_ne _ _ _ _ (by omega), rd_copyMem_out _ _ _ _ _ (by omega),
      rd_wr_self _ _ _ (by simp only [wr_length]; exact hin)]
  · intro k hk hin
    rw [rd_fillMem_out _ _ _ _ _ (by omega), rd_wr_of_ne _ _ _ _ (by omega),
      rd_wr_of_ne _ _ _ _ (by omega),
      rd_copyMem_at _ _ _ _ _ hk (by simp only [wr_length]; exact hin)]
  · intro hin
    rw [rd_fillMem_out _ _ _ _ _ (by omega), rd_wr_of_ne _ _ _ _ (by omega),
      rd_wr_self _ _ _ (by simp only [copyMem_length, wr_length]; exact hin)]
    rfl
  · intro hin
    rw [rd_fillMem_out _ _ _ _ _ (by omega),
      rd_wr_self _ _ _ (by simp only [wr_length, copyMem_length]; exact hin)]
  · intro off h1 h2 h3
    have hn : dEnd - (d + 5 + L + 2) + (d + 5 + L + 2) ≥ dEnd := by omega
    rw [rd_fillMem_at _ _ _ _ _ h1 (by omega)
      (by simp only [wr_length, copyMem_length]; exact h3)]
    rfl

/-! ### Branch evaluation lemmas for `UpdatePossibleResource` -/

theorem UPR_found (buf irq : List Nat) (L : Nat) (f0 : Bool) (p : Nat)
    (hfind : findPat buf ressPat 36 (scanBound buf) = some p) :
    UpdatePossibleResource buf irq L f0 = shortFormPatch buf irq L f0 p := by
  unfold UpdatePossibleResource
  rw [hfind]

theorem UPR_none (buf irq : List Nat) (L : Nat) (f0 : Bool)
    (hfind : findPat buf ressPat 36 (scanBound buf) = none) :
    UpdatePossibleResource buf irq L f0 = ⟨Status.notFound, buf, f0⟩ := by
  unfold UpdatePossibleResource
  rw [hfind]

theorem reslPhase_found (buf irq : List Nat) (L : Nat) (f0 : Bool) (q : Nat)
    (hfind : findPat buf reslPat 36 (scanBound buf) = some q) :
    reslPhase buf irq L f0 = longFormPatch buf irq L f0 q := by
  unfold reslPhase
  rw [hfind]

theorem reslPhase_none (buf irq : List Nat) (L : Nat) (f0 : Bool)
    (hfind : findPat buf reslPat 36 (scanBound buf) = none) :
    reslPhase buf irq L f0 = ⟨Status.notFound, buf, f0⟩ := by
  unfold reslPhase
  rw [hfind]

theorem shortFormPatch_badbits (buf irq : List Nat) (L : Nat) (f0 : Bool) (p : Nat)
    (hb : ¬ rd buf (p + 5) &&& 192 = 0) :
    shortFormPatch buf irq L f0 p = ⟨Status.unsupported, buf, f0⟩ := by
  simp only [shortFormPatch]
  rw [if_neg hb]

theorem shortFormPatch_badpfx (buf irq : List Nat) (L : Nat) (f0 : Bool) (p : Nat)
    (hb : rd buf (p + 5) &&& 192 = 0)
    (hpfx : pfxSkip (rd buf (p + 6)) = none) :
    shortFormPatch buf irq L f0 p = ⟨Status.unsupported, buf, f0⟩ := by
  simp only [shortFormPatch]
  rw [if_pos hb, hpfx]

theorem shortFormPatch_overflow (buf irq : List Nat) (L : Nat) (f0 : Bool) (p s : Nat)
    (hb : rd buf (p + 5) &&& 192 = 0)
    (hpfx : pfxSkip (rd buf (p + 6)) = some s)
    (h63 : 63 < 1 + s + 19 + L) :
    shortFormPatch buf irq L f0 p = reslPhase buf irq L f0 := by
  simp only [shortFormPatch]
  rw [if_pos hb, hpfx]
  simp only []
  rw [if_pos h63]

theorem shortFormPatch_invalid (buf irq : List Nat) (L : Nat) (f0 : Bool) (p s : Nat)
    (hb : rd buf (p + 5) &&& 192 = 0)
    (hpfx : pfxSkip (rd buf (p + 6)) = some s)
    (h63 : 1 + s + 19 + L ≤ 63)
    (hover : rd buf (p + 5) < 1 + s + 19 + L) :
    shortFormPatch buf irq L f0 p = ⟨Status.invalidParameter, buf, f0⟩ := by
  simp only [shortFormPatch]
  rw [if_pos hb, hpfx]
  simp only [decodeShortPkgLength]
  rw [if_neg (by omega), if_pos hover]

theorem shortFormPatch_eval (buf irq : List Nat) (L : Nat) (f0 : Bool) (p s : Nat)
    (hb : rd buf (p + 5) &&& 192 = 0)
    (hpfx : pfxSkip (rd buf (p + 6)) = some s)
    (h63 : 1 + s + 19 + L ≤ 63)
    (hfit : 1 + s + 19 + L ≤ rd buf (p + 5))
    (hbound : p + 5 < scanBound buf) :
    shortFormPatch buf irq L f0 p =
      rewriteDescriptor
        (wr (wr buf (p + 5) (encodeShortPkgLength (1 + s + 19 + L))) (p + 7) (L + 19))
        irq L true (p + 5) (1 + s + 19 + L) (p + 5 + rd buf (p + 5)) := by
  simp only [shortFormPatch]
  rw [if_pos hb, hpfx]
  simp only [decodeShortPkgLength]
  rw [if_neg (by omega), if_neg (by omega), if_neg (by omega)]

theorem longFormPatch_badbits (buf irq : List Nat) (L : Nat) (f0 : Bool) (q : Nat)
    (hb : rd buf (q + 5) &&& 192 = 0) :
    longFormPatch buf irq L f0 q = ⟨Status.unsupported, buf, f0⟩ := by
  simp only [longFormPatch]
  rw [if_neg (by simp [hb])]

theorem longFormPatch_badpfx (buf irq : List Nat) (L : Nat) (f0 : Bool) (q c : Nat)
    (hb : rd buf (q + 5) &&& 192 ≠ 0)
    (hc : c = (rd buf (q + 5) &&& 192) >>> 6)
    (hpfx : pfxSkip (rd buf (q + 5 + (1 + c))) = none) :
    longFormPatch buf irq L f0 q = ⟨Status.unsupported, buf, f0⟩ := by
  subst hc
  simp only [longFormPatch]
  rw [if_pos hb, hpfx]

theorem longFormPatch_invalid (buf irq : List Nat) (L : Nat) (f0 : Bool) (q c s : Nat)
    (hb : rd buf (q + 5) &&& 192 ≠ 0)
    (hc : c = (rd buf (q + 5) &&& 192) >>> 6)
    (hpfx : pfxSkip (rd buf (q + 5 + (1 + c))) = some s)
    (hover : decodeLongPkgLength (rd buf (q + 5)) (rd buf (q + 6)) < 1 + c + s + 19 + L) :
    longFormPatch buf irq L f0 q = ⟨Status.invalidParameter, buf, f0⟩ := by
  subst hc
  simp only [longFormPatch]
  rw [if_pos hb, hpfx]
  simp only []
  rw [if_pos hover]

/-- The lead-byte rewrite at line 331 keeps the top two bits, so the
extra-byte count re-read at line 338 equals the original one. -/
theorem c2_eq_c (buf : List Nat) (q v w : Nat) :
    (rd (wr (wr buf (q + 5) (encodeLongHdrByte (rd buf (q + 5)) v)) (q + 6) w) (q + 5) &&& 192) >>> 6
      = (rd buf (q + 5) &&& 192) >>> 6 := by
  rw [rd_wr_of_ne _ _ _ _ (by omega), rd_wr_self_cases]
  by_cases h : q + 5 < buf.length
  · rw [if_pos h, and192_shr6_eq, and192_shr6_eq]
    have hb : rd buf (q + 5) < 256 := rd_lt_256 buf (q + 5)
    rw [encodeLongHdrByte_eq]
    omega
  · rw [if_neg h]

theorem longFormPatch_eval (buf irq : List Nat) (L : Nat) (f0 : Bool) (q c s : Nat)
    (hb : rd buf (q + 5) &&& 192 ≠ 0)
    (hc : c = (rd buf (q + 5) &&& 192) >>> 6)
    (hpfx : pfxSkip (rd buf (q + 5 + (1 + c))) = some s)
    (hfit : 1 + c + s + 19 + L ≤ decodeLongPkgLength (rd buf (q + 5)) (rd buf (q + 6)))
    (hbound : q + 5 < scanBound buf) :
    longFormPatch buf irq L f0 q =
      rewriteDescriptor
        (wr (wr (wr buf (q + 5) (encodeLongHdrByte (rd buf (q + 5)) (1 + c + s + 19 + L)))
              (q + 6) (encodeLongExtByte (1 + c + s + 19 + L)))
          (q + 5 + 2 + c) (L + 19))
        irq L false (q + 5) (1 + c + s + 19 + L)
        (q + 5 + decodeLongPkgLength (rd buf (q + 5)) (rd buf (q + 6))) := by
  simp only [longFormPatch]
  rw [if_pos hb]
  rw [← hc, hpfx]
  simp only []
  rw [if_neg (by omega), if_neg (by omega)]
  rw [c2_eq_c buf q (1 + c + s + 19 + L) (encodeLongExtByte (1 + c + s + 19 + L)), ← hc]

theorem rewriteDescriptor_status (buf irq : List Nat) (L : Nat) (flag : Bool)
    (rs newLen dEnd : Nat) :
    (rewriteDescriptor buf irq L flag rs newLen dEnd).status = Status.success := by
  rw [rewriteDescriptor_buf buf irq L flag rs newLen dEnd _ rfl]

theorem rewriteDescriptor_flag (buf irq : List Nat) (L : Nat) (flag : Bool)
    (rs newLen dEnd : Nat) :
    (rewriteDescriptor buf irq L flag rs newLen dEnd).isShortForm = flag := by
  rw [rewriteDescriptor_buf buf irq L flag rs newLen dEnd _ rfl]

theorem longFormPatch_nf_edge (buf irq : List Nat) (L : Nat) (f0 : Bool) (q c s : Nat)
    (hb : rd buf (q + 5) &&& 192 ≠ 0)
    (hc : c = (rd buf (q + 5) &&& 192) >>> 6)
    (hpfx : pfxSkip (rd buf (q + 5 + (1 + c))) = some s)
    (hfit : 1 + c + s + 19 + L ≤ decodeLongPkgLength (rd buf (q + 5)) (rd buf (q + 6)))
    (hbound : scanBound buf ≤ q + 5) :
    longFormPatch buf irq L f0 q =
      ⟨Status.notFound,
        wr (wr (wr buf (q + 5) (encodeLongHdrByte (rd buf (q + 5)) (1 + c + s + 19 + L)))
              (q + 6) (encodeLongExtByte (1 + c + s + 19 + L)))
          (q + 5 + 2 + c) (L + 19),
        false⟩ := by
  simp only [longFormPatch]
  rw [if_pos hb]
  rw [← hc, hpfx]
  simp only []
  rw [if_neg (by omega)]
  rw [c2_eq_c buf q (1 + c + s + 19 + L) (encodeLongExtByte (1 + c + s + 19 + L)), ← hc]
  rw [if_pos hbound]

/-- Any exit of the `TPM_PRS_RESL` part that reports success went
through the long-form patch, which stores `FALSE` into the caller's
`IsShortFormPkgLength`. -/
theorem longFormPatch_success_flag (buf irq : List Nat) (L : Nat) (f0 : Bool) (q : Nat)
    (h : (longFormPatch buf irq L f0 q).status = Status.success) :
    (longFormPatch buf irq L f0 q).isShortForm = false := by
  by_cases hb : rd buf (q + 5) &&& 192 = 0
  · rw [longFormPatch_badbits buf irq L f0 q hb] at h
    simp at h
  · cases hp : pfxSkip (rd buf (q + 5 + (1 + (rd buf (q + 5) &&& 192) >>> 6))) with
    | none =>
      rw [longFormPatch_badpfx buf irq L f0 q _ hb rfl hp] at h
      simp at h
    | some s =>
      by_cases hover : decodeLongPkgLength (rd buf (q + 5)) (rd buf (q + 6)) <
          1 + (rd buf (q + 5) &&& 192) >>> 6 + s + 19 + L
      · rw [longFormPatch_invalid buf irq L f0 q _ s hb rfl hp hover] at h
        simp at h
      · by_cases hbound : q + 5 < scanBound buf
        · rw [longFormPatch_eval buf irq L f0 q _ s hb rfl hp (by omega) hbound]
          exact rewriteDescriptor_flag _ _ _ _ _ _ _
        · rw [longFormPatch_nf_edge buf irq L f0 q _ s hb rfl hp (by omega) (by omega)]

theorem reslPhase_success_flag (buf irq : List Nat) (L : Nat) (f0 : Bool)
    (h : (reslPhase buf irq L f0).status = Status.success) :
    (reslPhase buf irq L f0).isShortForm = false := by
  cases hf : findPat buf reslPat 36 (scanBound buf) with
  | none =>
    rw [reslPhase_none buf irq L f0 hf] at h
    simp at h
  | some q =>
    rw [reslPhase_found buf irq L f0 q hf] at h ⊢
    exact longFormPatch_success_flag buf irq L f0 q h

theorem longFormPatch_length (buf irq : List Nat) (L : Nat) (f0 : Bool) (q : Nat) :
    (longFormPatch buf irq L f0 q).buf.length = buf.length := by
  by_cases hb : rd buf (q + 5) &&& 192 = 0
  · rw [longFormPatch_badbits buf irq L f0 q hb]
  · cases hp : pfxSkip (rd buf (q + 5 + (1 + (rd buf (q + 5) &&& 192) >>> 6))) with
    | none => rw [longFormPatch_badpfx buf irq L f0 q _ hb rfl hp]
    | some s =>
      by_cases hover : decodeLongPkgLength (rd buf (q + 5)) (rd buf (q + 6)) <
          1 + (rd buf (q + 5) &&& 192) >>> 6 + s + 19 + L
      · rw [longFormPatch_invalid buf irq L f0 q _ s hb rfl hp hover]
      · by_cases hbound : q + 5 < scanBound buf
        · rw [longFormPatch_eval buf irq L f0 q _ s hb rfl hp (by omega) hbound,
            rewriteDescriptor_length]
          simp only [wr_length]
        · rw [longFormPatch_nf_edge buf irq L f0 q _ s hb rfl hp (by omega) (by omega)]
          simp only [wr_length]

theorem reslPhase_length (buf irq : List Nat) (L : Nat) (f0 : Bool) :
    (reslPhase buf irq L f0).buf.length = buf.length := by
  cases hf : findPat buf reslPat 36 (scanBound buf) with
  | none => rw [reslPhase_none buf irq L f0 hf]
  | some q =>
    rw [reslPhase_found buf irq L f0 q hf]
    exact longFormPatch_length buf irq L f0 q

theorem shortFormPatch_nf_edge (buf irq : List Nat) (L : Nat) (f0 : Bool) (p s : Nat)
    (hb : rd buf (p + 5) &&& 192 = 0)
    (hpfx : pfxSkip (rd buf (p + 6)) = some s)
    (h63 : 1 + s + 19 + L ≤ 63)
    (hfit : 1 + s + 19 + L ≤ rd buf (p + 5))
    (hbound : scanBound buf ≤ p + 5) :
    shortFormPatch buf irq L f0 p =
      ⟨Status.notFound,
        wr (wr buf (p + 5) (encodeShortPkgLength (1 + s + 19 + L))) (p + 7) (L + 19),
        true⟩ := by
  simp only [shortFormPatch]
  rw [if_pos hb, hpfx]
  simp only [decodeShortPkgLength]
  rw [if_neg (by omega), if_neg (by omega), if_pos hbound]

theorem shortFormPatch_length (buf irq : List Nat) (L : Nat) (f0 : Bool) (p : Nat) :
    (shortFormPatch buf irq L f0 p).buf.length = buf.length := by
  by_cases hb : rd buf (p + 5) &&& 192 = 0
  · cases hp : pfxSkip (rd buf (p + 6)) with
    | none => rw [shortFormPatch_badpfx buf irq L f0 p hb hp]
    | some s =>
      by_cases h63 : 63 < 1 + s + 19 + L
      · rw [shortFormPatch_overflow buf irq L f0 p s hb hp h63]
        exact reslPhase_length buf irq L f0
      · by_cases hover : rd buf (p + 5) < 1 + s + 19 + L
        · rw [shortFormPatch_invalid buf irq L f0 p s hb hp (by omega) hover]
        · by_cases hbound : p + 5 < scanBound buf
          · rw [shortFormPatch_eval buf irq L f0 p s hb hp (by omega) (by omega) hbound,
              rewriteDescriptor_length]
            simp only [wr_length]
          · rw [shortFormPatch_nf_edge buf irq L f0 p s hb hp (by omega) (by omega) (by omega)]
            simp only [wr_length]
  · rw [shortFormPatch_badbits buf irq L f0 p hb]

theorem UPR_length (buf irq : List Nat) (L : Nat) (f0 : Bool) :
    (UpdatePossibleResource buf irq L f0).buf.length = buf.length := by
  cases hf : findPat buf ressPat 36 (scanBound buf) with
  | none => rw [UPR_none buf irq L f0 hf]
  | some p =>
    rw [UPR_found buf irq L f0 p hf]
    exact shortFormPatch_length buf irq L f0 p

/-! ### Scan lemmas -/

theorem matchAt_iff (buf pat : List Nat) (p : Nat) :
    matchAt buf pat p = true ↔ ∀ k < pat.length, rd buf (p + k) = pat.getD k 0 := by
  rw [matchAt, List.all_eq_true]
  constructor
  · intro h k hk
    have := h k (List.mem_range.mpr hk)
    exact beq_iff_eq.mp this
  · intro h k hk
    exact beq_iff_eq.mpr (h k (List.mem_range.mp hk))

theorem findPat_none (buf pat : List Nat) (start bound : Nat)
    (h : ∀ p ∈ List.range' start (bound - start), matchAt buf pat p = false) :
    findPat buf pat start bound = none := by
  rw [findPat, List.find?_eq_none]
  intro x hx
  rw [h x hx]
  simp

theorem strcmpStop_le (buf : List Nat) (tag : List Nat) :
    ∀ p, strcmpStop buf p tag ≤ tag.length := by
  induction tag with
  | nil => intro p; simp [strcmpStop]
  | cons t ts ih =>
    intro p
    rw [strcmpStop]
    by_cases h : rd buf p = 0 ∨ rd buf p ≠ t
    · rw [if_pos h]
      simp
    · rw [if_neg h]
      have := ih (p + 1)
      simp only [List.length_cons]
      omega

theorem strcmpStop_full (buf : List Nat) (tag : List Nat) :
    ∀ p, strcmpStop buf p tag = tag.length → ∀ k < tag.length, rd buf (p + k) = tag.getD k 0 := by
  induction tag with
  | nil => intro p _ k hk; simp at hk
  | cons t ts ih =>
    intro p h k hk
    rw [strcmpStop] at h
    by_cases hc : rd buf p = 0 ∨ rd buf p ≠ t
    · rw [if_pos hc] at h
      simp at h
    · rw [if_neg hc] at h
      push_neg at hc
      simp only [List.length_cons] at h hk
      cases k with
      | zero => simpa using hc.2
      | succ k =>
        have hrec := ih (p + 1) (by omega) k (by omega)
        have : p + (k + 1) = p + 1 + k := by omega
        rw [this, hrec]
        simp

theorem strcmpEq_false_of_no_match (buf tag : List Nat) (p : Nat)
    (h : matchAt buf tag p = false) : strcmpEq buf p tag = false := by
  rw [strcmpEq]
  by_cases hs : strcmpStop buf p tag = tag.length
  · exfalso
    have := (matchAt_iff buf tag p).mpr (strcmpStop_full buf tag p hs)
    rw [h] at this
    cases this
  · simp [hs]

theorem strcmpStop_lt_of_no_match (buf tag : List Nat) (p : Nat)
    (h : matchAt buf tag p = false) : strcmpStop buf p tag < tag.length ∨ tag.length = 0 := by
  by_cases hs : strcmpStop buf p tag = tag.length
  · exfalso
    have := (matchAt_iff buf tag p).mpr (strcmpStop_full buf tag p hs)
    rw [h] at this
    cases this
  · have := strcmpStop_le buf tag p
    omega

/-- Re-decoding the two bytes the long-form re-encode writes recovers
the value modulo 4096. -/
theorem decode_encode_long (b0 v : Nat) :
    decodeLongPkgLength (encodeLongHdrByte b0 v) (encodeLongExtByte v) = v % 4096 := by
  rw [decodeLongPkgLength_eq, encodeLongHdrByte_eq, encodeLongExtByte_eq]
  omega

/-! ### Claims -/

/-- C8: a Size Field that decodes to `v` is re-encoded byte-identically
when the same value `v` is written back in the same form class: the
short form reproduces the single header byte, and the long form
reproduces the lead byte and the first extra byte (the only encoding
bytes the re-encode writes; all further extra bytes are left
untouched by the code). -/
theorem claim_C8 (b0 b1 : Nat) (hb0 : b0 < 256) (hb1 : b1 < 256) :
    (b0 &&& 192 = 0 → encodeShortPkgLength (decodeShortPkgLength b0) = b0) ∧
    (b0 &&& 192 ≠ 0 →
      encodeLongHdrByte b0 (decodeLongPkgLength b0 b1) = b0 ∧
      encodeLongExtByte (decodeLongPkgLength b0 b1) = b1) := by
  constructor
  · intro _
    rw [encodeShortPkgLength, decodeShortPkgLength]
    omega
  · intro _
    constructor
    · rw [encodeLongHdrByte_eq, decodeLongPkgLength_eq]
      omega
    · rw [encodeLongExtByte_eq, decodeLongPkgLength_eq]
      omega

/-- Witness for C8 at the short-form byte 40 and the long-form pair
(0x45, 0x05). -/
theorem claim_C8_witness :
    encodeShortPkgLength (decodeShortPkgLength 40) = 40 ∧
    encodeLongHdrByte 69 (decodeLongPkgLength 69 5) = 69 ∧
    encodeLongExtByte (decodeLongPkgLength 69 5) = 5 :=
  ⟨(claim_C8 40 0 (by decide) (by decide)).1 (by decide),
   (claim_C8 69 5 (by decide) (by decide)).2 (by decide)⟩

/-- C9: in the long-form re-encode path, a new package length that the
established encoding cannot represent (re-decoding the two bytes the
re-encode would write does not give the value back) is rejected with
`EFI_INVALID_PARAMETER` before any byte is written: such a value
exceeds 4095, while the original decoded length is at most 4095, so
the `NewPkgLength > OriginalPkgLength` guard fires first. -/
theorem claim_C9 (buf irq : List Nat) (L : Nat) (f0 : Bool) (p s q c s2 : Nat)
    (hfind : findPat buf ressPat 36 (scanBound buf) = some p)
    (hbS : rd buf (p + 5) &&& 192 = 0)
    (hpfxS : pfxSkip (rd buf (p + 6)) = some s)
    (hovS : 63 < 1 + s + 19 + L)
    (hfindL : findPat buf reslPat 36 (scanBound buf) = some q)
    (hbL : rd buf (q + 5) &&& 192 ≠ 0)
    (hc : c = (rd buf (q + 5) &&& 192) >>> 6)
    (hpfxL : pfxSkip (rd buf (q + 5 + (1 + c))) = some s2)
    (hrep : decodeLongPkgLength (encodeLongHdrByte (rd buf (q + 5)) (1 + c + s2 + 19 + L))
        (encodeLongExtByte (1 + c + s2 + 19 + L)) ≠ 1 + c + s2 + 19 + L) :
    UpdatePossibleResource buf irq L f0 = ⟨Status.invalidParameter, buf, f0⟩ := by
  rw [UPR_found buf irq L f0 p hfind,
    shortFormPatch_overflow buf irq L f0 p s hbS hpfxS hovS,
    reslPhase_found buf irq L f0 q hfindL]
  rw [decode_encode_long] at hrep
  have hbig : 4096 ≤ 1 + c + s2 + 19 + L := by omega
  have hb1 : rd buf (q + 6) < 256 := rd_lt_256 buf (q + 6)
  apply longFormPatch_invalid buf irq L f0 q c s2 hbL hc hpfxL
  rw [decodeLongPkgLength_eq]
  omega

/-- Witness for C9: `tbufB` with a 5000-byte interrupt list; the new
long-form package length 5023 is not representable, and the call fails
with the buffer untouched. -/
theorem claim_C9_witness :
    UpdatePossibleResource tbufB irqB 5000 false = ⟨Status.invalidParameter, tbufB, false⟩ :=
  claim_C9 tbufB irqB 5000 false 36 2 50 1 2 (by decide) (by decide) (by decide)
    (by decide) (by decide) (by decide) (by decide) (by decide) (by decide)

/-- C2: whenever the newly computed package length exceeds the
originally decoded one at the guard the executed path reaches (line
251 in the short-budget region, line 323 in the long-budget region),
the call returns `EFI_INVALID_PARAMETER` with no byte of the buffer
written and the out-flag untouched. -/
theorem claim_C2 :
    (∀ (buf irq : List Nat) (L : Nat) (f0 : Bool) (p s : Nat),
      findPat buf ressPat 36 (scanBound buf) = some p →
      rd buf (p + 5) &&& 192 = 0 →
      pfxSkip (rd buf (p + 6)) = some s →
      1 + s + 19 + L ≤ 63 →
      rd buf (p + 5) < 1 + s + 19 + L →
      UpdatePossibleResource buf irq L f0 = ⟨Status.invalidParameter, buf, f0⟩) ∧
    (∀ (buf irq : List Nat) (L : Nat) (f0 : Bool) (p s q c s2 : Nat),
      findPat buf ressPat 36 (scanBound buf) = some p →
      rd buf (p + 5) &&& 192 = 0 →
      pfxSkip (rd buf (p + 6)) = some s →
      63 < 1 + s + 19 + L →
      findPat buf reslPat 36 (scanBound buf) = some q →
      rd buf (q + 5) &&& 192 ≠ 0 →
      c = (rd buf (q + 5) &&& 192) >>> 6 →
      pfxSkip (rd buf (q + 5 + (1 + c))) = some s2 →
      decodeLongPkgLength (rd buf (q + 5)) (rd buf (q + 6)) < 1 + c + s2 + 19 + L →
      UpdatePossibleResource buf irq L f0 = ⟨Status.invalidParameter, buf, f0⟩) := by
  constructor
  · intro buf irq L f0 p s hfind hb hpfx h63 hover
    rw [UPR_found buf irq L f0 p hfind]
    exact shortFormPatch_invalid buf irq L f0 p s hb hpfx h63 hover
  · intro buf irq L f0 p s q c s2 hfind hbS hpfxS hovS hfindL hbL hc hpfxL hover
    rw [UPR_found buf irq L f0 p hfind,
      shortFormPatch_overflow buf irq L f0 p s hbS hpfxS hovS,
      reslPhase_found buf irq L f0 q hfindL]
    exact longFormPatch_invalid buf irq L f0 q c s2 hbL hc hpfxL hover

/-- Witness for C2: `tbufC` (short region of original length 23, new
length 26) and `tbufD` (long region of original length 64, new length
67) both fail with the buffer untouched. -/
theorem claim_C2_witness :
    UpdatePossibleResource tbufC irqA 4 false = ⟨Status.invalidParameter, tbufC, false⟩ ∧
    UpdatePossibleResource tbufD irqB 44 false = ⟨Status.invalidParameter, tbufD, false⟩ :=
  ⟨claim_C2.1 tbufC irqA 4 false 36 2 (by decide) (by decide) (by decide) (by decide) (by decide),
   claim_C2.2 tbufD irqB 44 false 36 2 50 1 2 (by decide) (by decide) (by decide) (by decide)
     (by decide) (by decide) (by decide) (by decide) (by decide)⟩

/-- C6: a byte after the anchor and `BufferOp` whose top two bits are
inconsistent with the region's expected form (nonzero in the
short-budget `RESS` region, zero in the long-budget `RESL` region), or
a Payload Header width-tag byte after the Size Field that is none of
the byte/word/dword prefixes, makes the call return `EFI_UNSUPPORTED`
with the buffer untouched. -/
theorem claim_C6 :
    (∀ (buf irq : List Nat) (L : Nat) (f0 : Bool) (p : Nat),
      findPat buf ressPat 36 (scanBound buf) = some p →
      rd buf (p + 5) &&& 192 ≠ 0 →
      UpdatePossibleResource buf irq L f0 = ⟨Status.unsupported, buf, f0⟩) ∧
    (∀ (buf irq : List Nat) (L : Nat) (f0 : Bool) (p : Nat),
      findPat buf ressPat 36 (scanBound buf) = some p →
      rd buf (p + 5) &&& 192 = 0 →
      pfxSkip (rd buf (p + 6)) = none →
      UpdatePossibleResource buf irq L f0 = ⟨Status.unsupported, buf, f0⟩) ∧
    (∀ (buf irq : List Nat) (L : Nat) (f0 : Bool) (p s q : Nat),
      findPat buf ressPat 36 (scanBound buf) = some p →
      rd buf (p + 5) &&& 192 = 0 →
      pfxSkip (rd buf (p + 6)) = some s →
      63 < 1 + s + 19 + L →
      findPat buf reslPat 36 (scanBound buf) = some q →
      rd buf (q + 5) &&& 192 = 0 →
      UpdatePossibleResource buf irq L f0 = ⟨Status.unsupported, buf, f0⟩) ∧
    (∀ (buf irq : List Nat) (L : Nat) (f0 : Bool) (p s q c : Nat),
      findPat buf ressPat 36 (scanBound buf) = some p →
      rd buf (p + 5) &&& 192 = 0 →
      pfxSkip (rd buf (p + 6)) = some s →
      63 < 1 + s + 19 + L →
      findPat buf reslPat 36 (scanBound buf) = some q →
      rd buf (q + 5) &&& 192 ≠ 0 →
      c = (rd buf (q + 5) &&& 192) >>> 6 →
      pfxSkip (rd buf (q + 5 + (1 + c))) = none →
      UpdatePossibleResource buf irq L f0 = ⟨Status.unsupported, buf, f0⟩) := by
  refine ⟨?_, ?_, ?_, ?_⟩
  · intro buf irq L f0 p hfind hb
    rw [UPR_found buf irq L f0 p hfind]
    exact shortFormPatch_badbits buf irq L f0 p hb
  · intro buf irq L f0 p hfind hb hpfx
    rw [UPR_found buf irq L f0 p hfind]
    exact shortFormPatch_badpfx buf irq L f0 p hb hpfx
  · intro buf irq L f0 p s q hfind hbS hpfxS hovS hfindL hbL
    rw [UPR_found buf irq L f0 p hfind,
      shortFormPatch_overflow buf irq L f0 p s hbS hpfxS hovS,
      reslPhase_found buf irq L f0 q hfindL]
    exact longFormPatch_badbits buf irq L f0 q hbL
  · intro buf irq L f0 p s q c hfind hbS hpfxS hovS hfindL hbL hc hpfxL
    rw [UPR_found buf irq L f0 p hfind,
      shortFormPatch_overflow buf irq L f0 p s hbS hpfxS hovS,
      reslPhase_found buf irq L f0 q hfindL]
    exact longFormPatch_badpfx buf irq L f0 q c hbL hc hpfxL

/-- Witness for C6: the four malformed tables `tbufE1`..`tbufE4` each
make the call return `EFI_UNSUPPORTED` with the buffer untouched. -/
theorem claim_C6_witness :
    UpdatePossibleResource tbufE1 irqA 8 false = ⟨Status.unsupported, tbufE1, false⟩ ∧
    UpdatePossibleResource tbufE2 irqA 8 false = ⟨Status.unsupported, tbufE2, false⟩ ∧
    UpdatePossibleResource tbufE3 irqB 44 false = ⟨Status.unsupported, tbufE3, false⟩ ∧
    UpdatePossibleResource tbufE4 irqB 44 false = ⟨Status.unsupported, tbufE4, false⟩ :=
  ⟨claim_C6.1 tbufE1 irqA 8 false 36 (by decide) (by decide),
   claim_C6.2.1 tbufE2 irqA 8 false 36 (by decide) (by decide) (by decide),
   claim_C6.2.2.1 tbufE3 irqB 44 false 36 2 50 (by decide) (by decide) (by decide) (by decide)
     (by decide) (by decide),
   claim_C6.2.2.2 tbufE4 irqB 44 false 36 2 50 1 (by decide) (by decide) (by decide) (by decide)
     (by decide) (by decide) (by decide) (by decide)⟩

/-- C10: when the `RESS` anchor does not occur in the scanned region,
`UpdatePossibleResource` returns `EFI_NOT_FOUND` with the buffer and
the out-flag untouched, for every interrupt-list size and regardless
of any `RESL` anchor: the long-budget part only runs after a found
short-budget region computed a new package length above 63, and with
no `RESS` match `NewPkgLength` stays 0. -/
theorem claim_C10 (buf irq : List Nat) (L : Nat) (f0 : Bool)
    (h : ∀ p ∈ List.range' 36 (scanBound buf - 36), matchAt buf ressPat p = false) :
    UpdatePossibleResource buf irq L f0 = ⟨Status.notFound, buf, f0⟩ :=
  UPR_none buf irq L f0 (findPat_none buf ressPat 36 (scanBound buf) h)

/-- Witness for C10: `tbufG` carries an intact `RESL` anchor and a
fitting interrupt list, yet without a `RESS` anchor the call reports
`EFI_NOT_FOUND` and writes nothing. -/
theorem claim_C10_witness :
    UpdatePossibleResource tbufG irqB 44 false = ⟨Status.notFound, tbufG, false⟩ :=
  claim_C10 tbufG irqB 44 false (by decide)

/-- C7: on a table in which the sought marker does not occur in the
scanned region, each patcher returns `EFI_NOT_FOUND` with the buffer
untouched, and no byte at or beyond the declared table length is ever
examined: the version scan reads at most 4 bytes from each position
`p ≤ Length - 4`, the HID scan stops before its 8th byte at every
position `p ≤ Length - 8` since the 8 tag characters never all match,
and the resource scan compares 4 bytes from positions
`p < Length - 27`. -/
theorem claim_C7 (buf ppver hid irq : List Nat) (pnp f0 : Bool) (L : Nat)
    (h1 : ∀ p ∈ List.range' 36 (tableLength buf - 39), matchAt buf ppvTag p = false)
    (h2 : ∀ p ∈ List.range' 36 (tableLength buf - 43), matchAt buf hidTag p = false)
    (h3 : ∀ p ∈ List.range' 36 (scanBound buf - 36), matchAt buf ressPat p = false) :
    UpdatePPVersion buf ppver = ⟨Status.notFound, buf⟩ ∧
    UpdateHID buf hid pnp = ⟨Status.notFound, buf⟩ ∧
    UpdatePossibleResource buf irq L f0 = ⟨Status.notFound, buf, f0⟩ ∧
    (∀ p ∈ List.range' 36 (tableLength buf - 39),
      p + strcmpStop buf p ppvTag < tableLength buf) ∧
    (∀ p ∈ List.range' 36 (tableLength buf - 43),
      p + strcmpStop buf p hidTag < tableLength buf) ∧
    (∀ p ∈ List.range' 36 (scanBound buf - 36), p + 3 < tableLength buf) := by
  refine ⟨?_, ?_, ?_, ?_, ?_, ?_⟩
  · have hfind : (List.range' 36 (tableLength buf - 39)).find?
        (fun p => strcmpEq buf p ppvTag) = none := by
      rw [List.find?_eq_none]
      intro x hx
      rw [strcmpEq_false_of_no_match buf ppvTag x (h1 x hx)]
      simp
    unfold UpdatePPVersion
    rw [hfind]
  · have hfind : (List.range' 36 (tableLength buf - 43)).find?
        (fun p => strcmpEq buf p hidTag) = none := by
      rw [List.find?_eq_none]
      intro x hx
      rw [strcmpEq_false_of_no_match buf hidTag x (h2 x hx)]
      simp
    unfold UpdateHID
    rw [hfind]
  · exact UPR_none buf irq L f0 (findPat_none buf ressPat 36 (scanBound buf) h3)
  · intro p hp
    have hm := List.mem_range'_1.mp hp
    have hs := strcmpStop_le buf ppvTag p
    have hlen : ppvTag.length = 3 := rfl
    omega
  · intro p hp
    have hm := List.mem_range'_1.mp hp
    have hs := strcmpStop_lt_of_no_match buf hidTag p (h2 p hp)
    have hlen : hidTag.length = 8 := rfl
    omega
  · intro p hp
    have hm := List.mem_range'_1.mp hp
    have hsb : scanBound buf = tableLength buf - 27 := rfl
    omega

set_option maxHeartbeats 3200000 in
/-- Witness for C7: `tbufF` contains none of the markers; all three
patchers report `EFI_NOT_FOUND` and the scans stay below the declared
length 100 (position 40 of the version scan shown). -/
theorem claim_C7_witness :
    (UpdatePPVersion tbufF [51, 46, 48] = ⟨Status.notFound, tbufF⟩ ∧
      UpdateHID tbufF [77, 83, 70, 84, 48, 49, 48, 49, 0] true = ⟨Status.notFound, tbufF⟩ ∧
      UpdatePossibleResource tbufF irqA 8 false = ⟨Status.notFound, tbufF, false⟩) ∧
    40 + strcmpStop tbufF 40 ppvTag < tableLength tbufF := by
  have h := claim_C7 tbufF [51, 46, 48] [77, 83, 70, 84, 48, 49, 48, 49, 0] irqA true false 8
    (by decide) (by decide) (by decide)
  exact ⟨⟨h.1, h.2.1, h.2.2.1⟩, h.2.2.2.1 40 (by decide)⟩

/-- C3: with the short-budget `RESS` region found and decoded, a new
package length of at most 63 is patched in place there with the
out-flag set `TRUE` (the rewritten `PkgLead` byte holds the new
length); a new package length above 63 makes any successful call go
through the long-budget `RESL` region with the out-flag set `FALSE`
(the rewritten first extra byte holds the upper bits of the new
length); the flag always matches the path that performed the patch. -/
theorem claim_C3 (buf irq : List Nat) (L : Nat) (f0 : Bool) (p s : Nat)
    (hfind : findPat buf ressPat 36 (scanBound buf) = some p)
    (hb : rd buf (p + 5) &&& 192 = 0)
    (hpfx : pfxSkip (rd buf (p + 6)) = some s) :
    (1 + s + 19 + L ≤ 63 → 1 + s + 19 + L ≤ rd buf (p + 5) → p + 5 < scanBound buf →
      p + 5 + rd buf (p + 5) ≤ buf.length →
      (UpdatePossibleResource buf irq L f0).status = Status.success ∧
      (UpdatePossibleResource buf irq L f0).isShortForm = true ∧
      rd (UpdatePossibleResource buf irq L f0).buf (p + 5) = 1 + s + 19 + L) ∧
    (63 < 1 + s + 19 + L →
      (UpdatePossibleResource buf irq L f0).status = Status.success →
      (UpdatePossibleResource buf irq L f0).isShortForm = false) ∧
    (∀ q c s2, 63 < 1 + s + 19 + L →
      findPat buf reslPat 36 (scanBound buf) = some q →
      rd buf (q + 5) &&& 192 ≠ 0 →
      c = (rd buf (q + 5) &&& 192) >>> 6 →
      pfxSkip (rd buf (q + 5 + (1 + c))) = some s2 →
      1 + c + s2 + 19 + L ≤ decodeLongPkgLength (rd buf (q + 5)) (rd buf (q + 6)) →
      q + 5 < scanBound buf →
      q + 5 + decodeLongPkgLength (rd buf (q + 5)) (rd buf (q + 6)) ≤ buf.length →
      (UpdatePossibleResource buf irq L f0).status = Status.success ∧
      (UpdatePossibleResource buf irq L f0).isShortForm = false ∧
      rd (UpdatePossibleResource buf irq L f0).buf (q + 6) = (1 + c + s2 + 19 + L) / 16) := by
  refine ⟨?_, ?_, ?_⟩
  · intro h63 hfit hbound hlen
    rw [UPR_found buf irq L f0 p hfind,
      shortFormPatch_eval buf irq L f0 p s hb hpfx h63 hfit hbound]
    refine ⟨rewriteDescriptor_status _ _ _ _ _ _ _, rewriteDescriptor_flag _ _ _ _ _ _ _, ?_⟩
    rw [rewriteDescriptor_untouched _ _ _ _ _ _ _ (p + 5 + (1 + s + 19 + L) - (5 + L + 2))
      (p + 5) rfl (by omega)]
    rw [rd_wr_of_ne _ _ _ _ (by omega)]
    rw [rd_wr_self _ _ _ (by omega)]
    rw [encodeShortPkgLength]
    omega
  · intro h63 hsuc
    rw [UPR_found buf irq L f0 p hfind,
      shortFormPatch_overflow buf irq L f0 p s hb hpfx h63] at hsuc ⊢
    exact reslPhase_success_flag buf irq L f0 hsuc
  · intro q c s2 h63 hfindL hbL hc hpfxL hfit hbound hlen
    have hb1 : rd buf (q + 6) < 256 := rd_lt_256 buf (q + 6)
    have horig : decodeLongPkgLength (rd buf (q + 5)) (rd buf (q + 6)) =
        16 * rd buf (q + 6) + rd buf (q + 5) % 16 := decodeLongPkgLength_eq _ _
    rw [UPR_found buf irq L f0 p hfind,
      shortFormPatch_overflow buf irq L f0 p s hb hpfx h63,
      reslPhase_found buf irq L f0 q hfindL,
      longFormPatch_eval buf irq L f0 q c s2 hbL hc hpfxL hfit hbound]
    refine ⟨rewriteDescriptor_status _ _ _ _ _ _ _, rewriteDescriptor_flag _ _ _ _ _ _ _, ?_⟩
    rw [rewriteDescriptor_untouched _ _ _ _ _ _ _ (q + 5 + (1 + c + s2 + 19 + L) - (5 + L + 2))
      (q + 6) rfl (by omega)]
    rw [rd_wr_of_ne _ _ _ _ (by omega)]
    rw [rd_wr_self _ _ _ (by simp only [wr_length]; omega)]
    rw [encodeLongExtByte_eq]
    omega

/-- Witness for C3: the short conjunct at `tbufA` with an 8-byte list
(new length 30), the overflow and long conjuncts at `tbufB` with a
44-byte list (new short length 66, long length 67). -/
theorem claim_C3_witness :
    ((UpdatePossibleResource tbufA irqA 8 false).status = Status.success ∧
      (UpdatePossibleResource tbufA irqA 8 false).isShortForm = true ∧
      rd (UpdatePossibleResource tbufA irqA 8 false).buf 41 = 30) ∧
    ((UpdatePossibleResource tbufB irqB 44 true).status = Status.success ∧
      (UpdatePossibleResource tbufB irqB 44 true).isShortForm = false ∧
      rd (UpdatePossibleResource tbufB irqB 44 true).buf 56 = 4) := by
  have hA := (claim_C3 tbufA irqA 8 false 36 2 (by decide) (by decide) (by decide)).1
    (by decide) (by decide) (by decide) (by decide)
  have hB := (claim_C3 tbufB irqB 44 true 36 2 (by decide) (by decide) (by decide)).2.2
    50 1 2 (by decide) (by decide) (by decide) (by decide) (by decide) (by decide)
    (by decide) (by decide)
  exact ⟨hA, hB⟩

/-- C4: on every successful patch with an interrupt-list byte size
`L ∈ {0, 4, ..., 60}` (either region), the rewritten Interrupt
descriptor carries inner length `2 + L`, entry count `L / 4`, the `L`
caller bytes right after its 5-byte header, and the 2-byte End Tag
(0x79, checksum 0) immediately after the copied list; `L = 0` yields
an empty list followed by the terminator.  The descriptor starts at
`newLen - (5 + L + 2)` bytes past the region start. -/
theorem claim_C4 :
    (∀ (buf irq : List Nat) (L : Nat) (f0 : Bool) (p s : Nat),
      L % 4 = 0 → L ≤ 60 →
      findPat buf ressPat 36 (scanBound buf) = some p →
      rd buf (p + 5) &&& 192 = 0 →
      pfxSkip (rd buf (p + 6)) = some s →
      1 + s + 19 + L ≤ 63 →
      1 + s + 19 + L ≤ rd buf (p + 5) →
      p + 5 < scanBound buf →
      p + 5 + rd buf (p + 5) ≤ buf.length →
      (UpdatePossibleResource buf irq L f0).status = Status.success ∧
      rd (UpdatePossibleResource buf irq L f0).buf (p + 19 + s) = 2 + L ∧
      rd (UpdatePossibleResource buf irq L f0).buf (p + 22 + s) = L / 4 ∧
      (∀ k, k < L →
        rd (UpdatePossibleResource buf irq L f0).buf (p + 23 + s + k) = irq.getD k 0 % 256) ∧
      rd (UpdatePossibleResource buf irq L f0).buf (p + 23 + s + L) = 121 ∧
      rd (UpdatePossibleResource buf irq L f0).buf (p + 24 + s + L) = 0) ∧
    (∀ (buf irq : List Nat) (L : Nat) (f0 : Bool) (p s q c s2 : Nat),
      L % 4 = 0 → L ≤ 60 →
      findPat buf ressPat 36 (scanBound buf) = some p →
      rd buf (p + 5) &&& 192 = 0 →
      pfxSkip (rd buf (p + 6)) = some s →
      63 < 1 + s + 19 + L →
      findPat buf reslPat 36 (scanBound buf) = some q →
      rd buf (q + 5) &&& 192 ≠ 0 →
      c = (rd buf (q + 5) &&& 192) >>> 6 →
      pfxSkip (rd buf (q + 5 + (1 + c))) = some s2 →
      1 + c + s2 + 19 + L ≤ decodeLongPkgLength (rd buf (q + 5)) (rd buf (q + 6)) →
      q + 5 < scanBound buf →
      q + 5 + decodeLongPkgLength (rd buf (q + 5)) (rd buf (q + 6)) ≤ buf.length →
      (UpdatePossibleResource buf irq L f0).status = Status.success ∧
      rd (UpdatePossibleResource buf irq L f0).buf (q + 19 + c + s2) = 2 + L ∧
      rd (UpdatePossibleResource buf irq L f0).buf (q + 22 + c + s2) = L / 4 ∧
      (∀ k, k < L →
        rd (UpdatePossibleResource buf irq L f0).buf (q + 23 + c + s2 + k) = irq.getD k 0 % 256) ∧
      rd (UpdatePossibleResource buf irq L f0).buf (q + 23 + c + s2 + L) = 121 ∧
      rd (UpdatePossibleResource buf irq L f0).buf (q + 24 + c + s2 + L) = 0) := by
  constructor
  · intro buf irq L f0 p s hL4 hL60 hfind hb hpfx h63 hfit hbound hlen
    rw [UPR_found buf irq L f0 p hfind,
      shortFormPatch_eval buf irq L f0 p s hb hpfx h63 hfit hbound]
    obtain ⟨B1, B2, B3, B4, B5, B6⟩ := rewriteDescriptor_bytes
      (wr (wr buf (p + 5) (encodeShortPkgLength (1 + s + 19 + L))) (p + 7) (L + 19))
      irq L true (p + 5) (1 + s + 19 + L) (p + 5 + rd buf (p + 5))
      (p + 5 + (1 + s + 19 + L) - (5 + L + 2)) rfl
    simp only [wr_length] at B1 B2 B3 B4 B5
    refine ⟨rewriteDescriptor_status _ _ _ _ _ _ _, ?_, ?_, ?_, ?_, ?_⟩
    · rw [show p + 19 + s = p + 5 + (1 + s + 19 + L) - (5 + L + 2) + 1 from by omega,
        B1 (by omega)]
      omega
    · rw [show p + 22 + s = p + 5 + (1 + s + 19 + L) - (5 + L + 2) + 4 from by omega,
        B2 (by omega)]
      omega
    · intro k hk
      rw [show p + 23 + s + k = p + 5 + (1 + s + 19 + L) - (5 + L + 2) + 5 + k from by omega]
      exact B3 k hk (by omega)
    · rw [show p + 23 + s + L = p + 5 + (1 + s + 19 + L) - (5 + L + 2) + 5 + L from by omega]
      exact B4 (by omega)
    · rw [show p + 24 + s + L = p + 5 + (1 + s + 19 + L) - (5 + L + 2) + 5 + L + 1 from by omega]
      exact B5 (by omega)
  · intro buf irq L f0 p s q c s2 hL4 hL60 hfind hb hpfx h63 hfindL hbL hc hpfxL hfit hbound hlen
    have hb1 : rd buf (q + 6) < 256 := rd_lt_256 buf (q + 6)
    have horig : decodeLongPkgLength (rd buf (q + 5)) (rd buf (q + 6)) =
        16 * rd buf (q + 6) + rd buf (q + 5) % 16 := decodeLongPkgLength_eq _ _
    rw [UPR_found buf irq L f0 p hfind,
      shortFormPatch_overflow buf irq L f0 p s hb hpfx h63,
      reslPhase_found buf irq L f0 q hfindL,
      longFormPatch_eval buf irq L f0 q c s2 hbL hc hpfxL hfit hbound]
    obtain ⟨B1, B2, B3, B4, B5, B6⟩ := rewriteDescriptor_bytes
      (wr (wr (wr buf (q + 5) (encodeLongHdrByte (rd buf (q + 5)) (1 + c + s2 + 19 + L)))
          (q + 6) (encodeLongExtByte (1 + c + s2 + 19 + L)))
        (q + 5 + 2 + c) (L + 19))
      irq L false (q + 5) (1 + c + s2 + 19 + L)
      (q + 5 + decodeLongPkgLength (rd buf (q + 5)) (rd buf (q + 6)))
      (q + 5 + (1 + c + s2 + 19 + L) - (5 + L + 2)) rfl
    simp only [wr_length] at B1 B2 B3 B4 B5
    refine ⟨rewriteDescriptor_status _ _ _ _ _ _ _, ?_, ?_, ?_, ?_, ?_⟩
    · rw [show q + 19 + c + s2 = q + 5 + (1 + c + s2 + 19 + L) - (5 + L + 2) + 1 from by omega,
        B1 (by omega)]
      omega
    · rw [show q + 22 + c + s2 = q + 5 + (1 + c + s2 + 19 + L) - (5 + L + 2) + 4 from by omega,
        B2 (by omega)]
      omega
    · intro k hk
      rw [show q + 23 + c + s2 + k =
            q + 5 + (1 + c + s2 + 19 + L) - (5 + L + 2) + 5 + k from by omega]
      exact B3 k hk (by omega)
    · rw [show q + 23 + c + s2 + L =
          q + 5 + (1 + c + s2 + 19 + L) - (5 + L + 2) + 5 + L from by omega]
      exact B4 (by omega)
    · rw [show q + 24 + c + s2 + L =
          q + 5 + (1 + c + s2 + 19 + L) - (5 + L + 2) + 5 + L + 1 from by omega]
      exact B5 (by omega)

/-- Witness for C4: the short conjunct at `tbufA` with the 8-byte list
`irqA` (descriptor at offset 56) and the long conjunct at `tbufB` with
the 44-byte list `irqB` (descriptor at offset 71): length, count,
copied bytes, and terminator all land where claimed. -/
theorem claim_C4_witness :
    ((UpdatePossibleResource tbufA irqA 8 false).status = Status.success ∧
      rd (UpdatePossibleResource tbufA irqA 8 false).buf 57 = 10 ∧
      rd (UpdatePossibleResource tbufA irqA 8 false).buf 60 = 2 ∧
      rd (UpdatePossibleResource tbufA irqA 8 false).buf 64 = 4 ∧
      rd (UpdatePossibleResource tbufA irqA 8 false).buf 69 = 121 ∧
      rd (UpdatePossibleResource tbufA irqA 8 false).buf 70 = 0) ∧
    ((UpdatePossibleResource tbufB irqB 44 false).status = Status.success ∧
      rd (UpdatePossibleResource tbufB irqB 44 false).buf 72 = 46 ∧
      rd (UpdatePossibleResource tbufB irqB 44 false).buf 75 = 11 ∧
      rd (UpdatePossibleResource tbufB irqB 44 false).buf 120 = 121 ∧
      rd (UpdatePossibleResource tbufB irqB 44 false).buf 121 = 0) := by
  have hA := claim_C4.1 tbufA irqA 8 false 36 2 (by decide) (by decide) (by decide) (by decide)
    (by decide) (by decide) (by decide) (by decide) (by decide)
  have hB := claim_C4.2 tbufB irqB 44 false 36 2 50 1 2 (by decide) (by decide) (by decide)
    (by decide) (by decide) (by decide) (by decide) (by decide) (by decide) (by decide)
    (by decide) (by decide) (by decide)
  refine ⟨⟨hA.1, hA.2.1, hA.2.2.1, ?_, hA.2.2.2.2.1, hA.2.2.2.2.2⟩,
    hB.1, hB.2.1, hB.2.2.1, hB.2.2.2.2.1, hB.2.2.2.2.2⟩
  have h := hA.2.2.2.1 3 (by decide)
  simpa using h

/-- C5: `UpdatePossibleResource` never changes the buffer's total
length (on any path, successful or not), and on every successful patch
each byte strictly after the 2-byte End Tag up to the end of the
original region (region start plus the pre-patch decoded package
length) holds the `AML_NOOP_OP` filler byte 0xA3. -/
theorem claim_C5 :
    (∀ (buf irq : List Nat) (L : Nat) (f0 : Bool),
      (UpdatePossibleResource buf irq L f0).buf.length = buf.length) ∧
    (∀ (buf irq : List Nat) (L : Nat) (f0 : Bool) (p s : Nat),
      findPat buf ressPat 36 (scanBound buf) = some p →
      rd buf (p + 5) &&& 192 = 0 →
      pfxSkip (rd buf (p + 6)) = some s →
      1 + s + 19 + L ≤ 63 →
      1 + s + 19 + L ≤ rd buf (p + 5) →
      p + 5 < scanBound buf →
      p + 5 + rd buf (p + 5) ≤ buf.length →
      (UpdatePossibleResource buf irq L f0).status = Status.success ∧
      (∀ off, p + 25 + s + L ≤ off → off < p + 5 + rd buf (p + 5) →
        rd (UpdatePossibleResource buf irq L f0).buf off = 163)) ∧
    (∀ (buf irq : List Nat) (L : Nat) (f0 : Bool) (p s q c s2 : Nat),
      findPat buf ressPat 36 (scanBound buf) = some p →
      rd buf (p + 5) &&& 192 = 0 →
      pfxSkip (rd buf (p + 6)) = some s →
      63 < 1 + s + 19 + L →
      findPat buf reslPat 36 (scanBound buf) = some q →
      rd buf (q + 5) &&& 192 ≠ 0 →
      c = (rd buf (q + 5) &&& 192) >>> 6 →
      pfxSkip (rd buf (q + 5 + (1 + c))) = some s2 →
      1 + c + s2 + 19 + L ≤ decodeLongPkgLength (rd buf (q + 5)) (rd buf (q + 6)) →
      q + 5 < scanBound buf →
      q + 5 + decodeLongPkgLength (rd buf (q + 5)) (rd buf (q + 6)) ≤ buf.length →
      (UpdatePossibleResource buf irq L f0).status = Status.success ∧
      (∀ off, q + 25 + c + s2 + L ≤ off →
        off < q + 5 + decodeLongPkgLength (rd buf (q + 5)) (rd buf (q + 6)) →
        rd (UpdatePossibleResource buf irq L f0).buf off = 163)) := by
  refine ⟨?_, ?_, ?_⟩
  · intro buf irq L f0
    exact UPR_length buf irq L f0
  · intro buf irq L f0 p s hfind hb hpfx h63 hfit hbound hlen
    rw [UPR_found buf irq L f0 p hfind,
      shortFormPatch_eval buf irq L f0 p s hb hpfx h63 hfit hbound]
    obtain ⟨B1, B2, B3, B4, B5, B6⟩ := rewriteDescriptor_bytes
      (wr (wr buf (p + 5) (encodeShortPkgLength (1 + s + 19 + L))) (p + 7) (L + 19))
      irq L true (p + 5) (1 + s + 19 + L) (p + 5 + rd buf (p + 5))
      (p + 5 + (1 + s + 19 + L) - (5 + L + 2)) rfl
    simp only [wr_length] at B6
    refine ⟨rewriteDescriptor_status _ _ _ _ _ _ _, ?_⟩
    intro off ho1 ho2
    exact B6 off (by omega) ho2 (by omega)
  · intro buf irq L f0 p s q c s2 hfind hb hpfx h63 hfindL hbL hc hpfxL hfit hbound hlen
    have hb1 : rd buf (q + 6) < 256 := rd_lt_256 buf (q + 6)
    have horig : decodeLongPkgLength (rd buf (q + 5)) (rd buf (q + 6)) =
        16 * rd buf (q + 6) + rd buf (q + 5) % 16 := decodeLongPkgLength_eq _ _
    rw [UPR_found buf irq L f0 p hfind,
      shortFormPatch_overflow buf irq L f0 p s hb hpfx h63,
      reslPhase_found buf irq L f0 q hfindL,
      longFormPatch_eval buf irq L f0 q c s2 hbL hc hpfxL hfit hbound]
    obtain ⟨B1, B2, B3, B4, B5, B6⟩ := rewriteDescriptor_bytes
      (wr (wr (wr buf (q + 5) (encodeLongHdrByte (rd buf (q + 5)) (1 + c + s2 + 19 + L)))
          (q + 6) (encodeLongExtByte (1 + c + s2 + 19 + L)))
        (q + 5 + 2 + c) (L + 19))
      irq L false (q + 5) (1 + c + s2 + 19 + L)
      (q + 5 + decodeLongPkgLength (rd buf (q + 5)) (rd buf (q + 6)))
      (q + 5 + (1 + c + s2 + 19 + L) - (5 + L + 2)) rfl
    simp only [wr_length] at B6
    refine ⟨rewriteDescriptor_status _ _ _ _ _ _ _, ?_⟩
    intro off ho1 ho2
    exact B6 off (by omega) ho2 (by omega)

/-- Witness for C5: the buffer length is preserved on `tbufA` (100
bytes) and on `tbufB` (200 bytes), and the filler byte sits at
offset 75 of patched `tbufA` (its original region runs to 81) and at
offset 130 of patched `tbufB` (its original region runs to 135). -/
theorem claim_C5_witness :
    (UpdatePossibleResource tbufA irqA 8 false).buf.length = tbufA.length ∧
    rd (UpdatePossibleResource tbufA irqA 8 false).buf 75 = 163 ∧
    rd (UpdatePossibleResource tbufB irqB 44 false).buf 130 = 163 := by
  have hA := (claim_C5.2.1 tbufA irqA 8 false 36 2 (by decide) (by decide) (by decide)
    (by decide) (by decide) (by decide) (by decide)).2 75 (by decide) (by decide)
  have hB := (claim_C5.2.2 tbufB irqB 44 false 36 2 50 1 2 (by decide) (by decide) (by decide)
    (by decide) (by decide) (by decide) (by decide) (by decide) (by decide) (by decide)
    (by decide)).2 130 (by decide) (by decide)
  exact ⟨claim_C5.1 tbufA irqA 8 false, hA, hB⟩

/-- C1 counterexample: in `tbufJ` the Size Field at the `RESL` anchor
(offset 50, lead byte at offset 55) is in long form with declared
extra-byte count 2 and extra bytes 0 and 1.  The claim's formula over
all declared extra bytes gives 256, but the decode step of
`UpdatePossibleResource` computes 0 from the first extra byte alone,
and accordingly the call rejects a new package length of 68 as
exceeding the original one. -/
theorem claim_C1_counterexample :
    rd tbufJ 55 &&& 192 ≠ 0 ∧
    (rd tbufJ 55 &&& 192) >>> 6 = 2 ∧
    specLongFormDecode (rd tbufJ 55) [rd tbufJ 56, rd tbufJ 57] = 256 ∧
    decodeLongPkgLength (rd tbufJ 55) (rd tbufJ 56) = 0 ∧
    UpdatePossibleResource tbufJ irqB 44 false = ⟨Status.invalidParameter, tbufJ, false⟩ := by
  decide

/-- C1 amended: in the long-form decode step of
`UpdatePossibleResource`, the original package length is computed from
the low nibble of the header byte and the first extra byte alone
(`low nibble + 16 * first extra byte`), whatever extra-byte count the
top two bits declare; extra bytes 2 and 3 are ignored.  Behaviorally,
in a reached long-budget region the invalid-size rejection triggers
exactly when the new length exceeds this two-byte decode. -/
theorem claim_C1_amended (buf irq : List Nat) (L : Nat) (f0 : Bool) (p s q c s2 : Nat)
    (hfind : findPat buf ressPat 36 (scanBound buf) = some p)
    (hb : rd buf (p + 5) &&& 192 = 0)
    (hpfx : pfxSkip (rd buf (p + 6)) = some s)
    (h63 : 63 < 1 + s + 19 + L)
    (hfindL : findPat buf reslPat 36 (scanBound buf) = some q)
    (hbL : rd buf (q + 5) &&& 192 ≠ 0)
    (hc : c = (rd buf (q + 5) &&& 192) >>> 6)
    (hpfxL : pfxSkip (rd buf (q + 5 + (1 + c))) = some s2)
    (hbound : q + 5 < scanBound buf) :
    decodeLongPkgLength (rd buf (q + 5)) (rd buf (q + 6)) =
      rd buf (q + 5) % 16 + 16 * rd buf (q + 6) ∧
    ((UpdatePossibleResource buf irq L f0).status = Status.invalidParameter ↔
      decodeLongPkgLength (rd buf (q + 5)) (rd buf (q + 6)) < 1 + c + s2 + 19 + L) := by
  constructor
  · rw [decodeLongPkgLength_eq]
    omega
  · rw [UPR_found buf irq L f0 p hfind,
      shortFormPatch_overflow buf irq L f0 p s hb hpfx h63,
      reslPhase_found buf irq L f0 q hfindL]
    by_cases hover : decodeLongPkgLength (rd buf (q + 5)) (rd buf (q + 6)) <
        1 + c + s2 + 19 + L
    · rw [longFormPatch_invalid buf irq L f0 q c s2 hbL hc hpfxL hover]
      simp [hover]
    · rw [longFormPatch_eval buf irq L f0 q c s2 hbL hc hpfxL (by omega) hbound]
      constructor
      · intro hinv
        rw [rewriteDescriptor_status] at hinv
        cases hinv
      · intro hlt
        exact absurd hlt hover

/-- Witness for C1: the amended decode applied to `tbufJ` (count 2,
extra bytes 0 and 1): the decode is the low nibble plus 16 times the
first extra byte, and the invalid-size rejection matches it. -/
theorem claim_C1_witness :
    decodeLongPkgLength (rd tbufJ 55) (rd tbufJ 56) =
      rd tbufJ 55 % 16 + 16 * rd tbufJ 56 ∧
    ((UpdatePossibleResource tbufJ irqB 44 false).status = Status.invalidParameter ↔
      decodeLongPkgLength (rd tbufJ 55) (rd tbufJ 56) < 1 + 2 + 2 + 19 + 44) :=
  claim_C1_amended tbufJ irqB 44 false 36 2 50 2 2 (by decide) (by decide) (by decide)
    (by decide) (by decide) (by decide) (by decide) (by decide) (by decide)

end Tcg2
